import Mathlib

/-!
# Verification of the three-layer DNN trainer (src/three_layer_dnn.ipynb)

The notebook implements a 3-layer fully connected network (two ReLU hidden
layers, sigmoid output, binary cross-entropy loss) trained by full-batch
gradient descent.  This file is a shallow embedding of its core functions.

Modelling choices:
* numpy 2-d arrays are `Mat := List (List ℚ)` (row-major), with `Mat.get i j`
  reading entry `(i, j)` (default `0` out of range, like a totalised lookup);
  exact rationals stand in for floats so every arithmetic claim is exact.
* `np.exp` and `np.log` are transcendental; they enter the embedding as
  explicit function parameters `e l : ℚ → ℚ` threaded to the functions that
  use them (`sigmoid`, `compute_cost_3layer`).  All other numpy operations
  (`np.dot`, `+`, `-`, `*`, `/`, `np.sum`, `np.maximum`, `>`) are defined
  below, entry for entry.
* `np.random.randn` is a parameter `randn : Nat → Nat → Mat` (the random
  stream), so `initialize_parameters_3layer` is deterministic in it.
-/

abbrev Mat := List (List ℚ)

namespace Mat

/-- Number of rows (`shape[0]`). -/
def rows (M : Mat) : Nat := M.length

/-- Number of columns (`shape[1]`), read off the first row. -/
def cols (M : Mat) : Nat := (M.headD []).length

/-- Entry `(i, j)`, with default `0` out of range. -/
def get (M : Mat) (i j : Nat) : ℚ := (M.getD i []).getD j 0

/-- `M` is a well-formed `r × c` array. -/
def IsRect (M : Mat) (r c : Nat) : Prop :=
  M.length = r ∧ ∀ i, i < r → (M.getD i []).length = c

instance (M : Mat) (r c : Nat) : Decidable (M.IsRect r c) := by
  unfold IsRect; infer_instance

end Mat

/-- `np.dot A B`: matrix product; entry `(i, j)` sums `A[i][k] * B[k][j]`
over the inner dimension (the length of row `i` of `A`). -/
def npDot (A B : Mat) : Mat :=
  A.map fun row =>
    (List.range B.cols).map fun j =>
      ∑ k ∈ Finset.range row.length, row.getD k 0 * (B.getD k []).getD j 0

/-- `Z + b` for a column vector `b`: numpy broadcast of the bias across the
columns of `Z`. -/
def npAddBias (Z b : Mat) : Mat :=
  List.zipWith (fun zrow brow => zrow.map fun z => z + brow.getD 0 0) Z b

/-- Elementwise `A + B`. -/
def npAdd (A B : Mat) : Mat := List.zipWith (List.zipWith (· + ·)) A B

/-- Elementwise `A - B`. -/
def npSub (A B : Mat) : Mat := List.zipWith (List.zipWith (· - ·)) A B

/-- Elementwise (Hadamard) `A * B`. -/
def npMul (A B : Mat) : Mat := List.zipWith (List.zipWith (· * ·)) A B

/-- Scalar times matrix, `c * A`. -/
def npScale (c : ℚ) (A : Mat) : Mat := A.map (List.map fun a => c * a)

/-- Matrix divided by a scalar, `A / c`. -/
def npDiv (A : Mat) (c : ℚ) : Mat := A.map (List.map fun a => a / c)

/-- `A.T`. -/
def npTranspose (M : Mat) : Mat :=
  (List.range M.cols).map fun j => M.map fun row => row.getD j 0

/-- `np.sum A` over all entries. -/
def npSum (M : Mat) : ℚ := (M.map List.sum).sum

/-- `np.sum(A, axis=1, keepdims=True)`: row-wise sum, keeping column shape. -/
def npRowSum (M : Mat) : Mat := M.map fun row => [row.sum]

/-- The boolean mask `(A > 0)` as the 0/1 matrix numpy coerces it to when it
is multiplied into a float array. -/
def npGtZero (A : Mat) : Mat :=
  A.map (List.map fun a => if 0 < a then (1 : ℚ) else 0)

/-- Elementwise `1 - A`. -/
def npOneSub (A : Mat) : Mat := A.map (List.map fun a => 1 - a)

/-- Elementwise `np.log A`, for the given model `l` of `np.log`. -/
def npLog (l : ℚ → ℚ) (A : Mat) : Mat := A.map (List.map l)

/-- `def sigmoid(z): return 1 / (1 + np.exp(-z))`, elementwise, for the given
model `e` of `np.exp`. -/
def sigmoid (e : ℚ → ℚ) (z : Mat) : Mat :=
  z.map (List.map fun t => 1 / (1 + e (-t)))

/-- `def relu(z): return np.maximum(0, z)`, elementwise. -/
def relu (z : Mat) : Mat := z.map (List.map fun t => max 0 t)

/-- All-zero `r × c` matrix (`np.zeros`). -/
def npZeros (r c : Nat) : Mat := List.replicate r (List.replicate c 0)

/-- `initialize_parameters_3layer(n_x, n_h1, n_h2, n_y)` from the notebook:
weights are `randn(rows, cols) * 0.01`, biases are zero columns.  The source
performs no validation of the widths. -/
def initialize_parameters_3layer (randn : Nat → Nat → Mat)
    (n_x n_h1 n_h2 n_y : Nat) : Mat × Mat × Mat × Mat × Mat × Mat :=
  (npScale (1 / 100) (randn n_h1 n_x), npZeros n_h1 1,
   npScale (1 / 100) (randn n_h2 n_h1), npZeros n_h2 1,
   npScale (1 / 100) (randn n_y n_h2), npZeros n_y 1)

/-- `forward_propagation_3layer(X, W1, b1, W2, b2, W3, b3)` from the notebook:
returns `(A1, A2, A3)`; the pre-activations `Z1, Z2, Z3` are local values and
are not part of the returned cache. -/
def forward_propagation_3layer (e : ℚ → ℚ)
    (X W1 b1 W2 b2 W3 b3 : Mat) : Mat × Mat × Mat :=
  let Z1 := npAddBias (npDot W1 X) b1
  let A1 := relu Z1
  let Z2 := npAddBias (npDot W2 A1) b2
  let A2 := relu Z2
  let Z3 := npAddBias (npDot W3 A2) b3
  let A3 := sigmoid e Z3
  (A1, A2, A3)

/-- `compute_cost_3layer(A3, y)` from the notebook:
`-np.sum(y * np.log(A3) + (1 - y) * np.log(1 - A3)) / m` with `m = y.shape[1]`. -/
def compute_cost_3layer (l : ℚ → ℚ) (A3 y : Mat) : ℚ :=
  -npSum (npAdd (npMul y (npLog l A3)) (npMul (npOneSub y) (npLog l (npOneSub A3)))) /
    (y.cols : ℚ)

/-- `backward_propagation_3layer(X, y, A1, A2, A3, W2, W3)` from the notebook.
The ReLU-derivative masks are the post-activation comparisons `(A2 > 0)` and
`(A1 > 0)` exactly as in the source. -/
def backward_propagation_3layer (X y A1 A2 A3 W2 W3 : Mat) :
    Mat × Mat × Mat × Mat × Mat × Mat :=
  let m : ℚ := (X.cols : ℚ)
  let dZ3 := npSub A3 y
  let dW3 := npDiv (npDot dZ3 (npTranspose A2)) m
  let db3 := npDiv (npRowSum dZ3) m
  let dZ2 := npMul (npDot (npTranspose W3) dZ3) (npGtZero A2)
  let dW2 := npDiv (npDot dZ2 (npTranspose A1)) m
  let db2 := npDiv (npRowSum dZ2) m
  let dZ1 := npMul (npDot (npTranspose W2) dZ2) (npGtZero A1)
  let dW1 := npDiv (npDot dZ1 (npTranspose X)) m
  let db1 := npDiv (npRowSum dZ1) m
  (dW1, db1, dW2, db2, dW3, db3)

/-- `update_parameters_3layer(...)` from the notebook: plain gradient descent,
`W - learning_rate * dW`, `b - learning_rate * db`.  The source performs no
validation of the learning rate. -/
def update_parameters_3layer (W1 b1 W2 b2 W3 b3 dW1 db1 dW2 db2 dW3 db3 : Mat)
    (learning_rate : ℚ) : Mat × Mat × Mat × Mat × Mat × Mat :=
  (npSub W1 (npScale learning_rate dW1),
   npSub b1 (npScale learning_rate db1),
   npSub W2 (npScale learning_rate dW2),
   npSub b2 (npScale learning_rate db2),
   npSub W3 (npScale learning_rate dW3),
   npSub b3 (npScale learning_rate db3))

/-- The parameter state `(W1, b1, W2, b2, W3, b3)` carried by the training
loop of `train_three_layer`. -/
structure Params where
  W1 : Mat
  b1 : Mat
  W2 : Mat
  b2 : Mat
  W3 : Mat
  b3 : Mat
deriving DecidableEq

/-- One epoch of the body of `train_three_layer`'s loop, without the cost:
forward propagation, then backward propagation on that same forward cache,
then the gradient-descent update. -/
def epochStep (e l : ℚ → ℚ) (X y : Mat) (α : ℚ) (p : Params) : Params :=
  match forward_propagation_3layer e X p.W1 p.b1 p.W2 p.b2 p.W3 p.b3 with
  | (A1, A2, A3) =>
    match backward_propagation_3layer X y A1 A2 A3 p.W2 p.W3 with
    | (dW1, db1, dW2, db2, dW3, db3) =>
      match update_parameters_3layer p.W1 p.b1 p.W2 p.b2 p.W3 p.b3
          dW1 db1 dW2 db2 dW3 db3 α with
      | (W1, b1, W2, b2, W3, b3) => ⟨W1, b1, W2, b2, W3, b3⟩

/-- The cost the loop body computes at an epoch: `compute_cost_3layer` on the
output `A3` of the forward pass at the current (pre-update) parameters. -/
def epochCost (e l : ℚ → ℚ) (X y : Mat) (p : Params) : ℚ :=
  match forward_propagation_3layer e X p.W1 p.b1 p.W2 p.b2 p.W3 p.b3 with
  | (_, _, A3) => compute_cost_3layer l A3 y

/-- The `for i in range(epochs)` loop of `train_three_layer`, run for the
remaining number of epochs with `i` the current epoch index: each iteration
performs forward propagation, cost computation, backward propagation and the
parameter update (factored here into `epochCost` and `epochStep`), and
appends the (pre-update) cost to the history when `i % 100 == 0`. -/
def trainLoop (e l : ℚ → ℚ) (X y : Mat) (α : ℚ) :
    Nat → Nat → Params → Params × List ℚ
  | 0, _, p => (p, [])
  | Nat.succ n, i, p =>
    let cost := epochCost e l X y p
    let p' := epochStep e l X y α p
    let rest := trainLoop e l X y α n (i + 1) p'
    (rest.1, if i % 100 = 0 then cost :: rest.2 else rest.2)

/-- `train_three_layer(X, y, n_h1, n_h2, learning_rate, epochs)` from the
notebook: initializes parameters from the shapes of `X` and `y`, runs the
epoch loop from `i = 0`, and returns the final parameters with the sampled
cost history. -/
def train_three_layer (e l : ℚ → ℚ) (randn : Nat → Nat → Mat) (X y : Mat)
    (n_h1 n_h2 : Nat) (learning_rate : ℚ) (epochs : Nat) : Params × List ℚ :=
  match initialize_parameters_3layer randn X.rows n_h1 n_h2 y.rows with
  | (W1, b1, W2, b2, W3, b3) =>
    trainLoop e l X y learning_rate epochs 0 ⟨W1, b1, W2, b2, W3, b3⟩

/-! ## List indexing helpers -/

lemma getD_map_lt {α β : Type} (f : α → β) (l : List α) {i : Nat}
    (h : i < l.length) (d : β) (d' : α) : (l.map f).getD i d = f (l.getD i d') := by
  rw [List.getD_eq_getElem _ _ (by simpa using h), List.getD_eq_getElem _ _ h,
    List.getElem_map]

lemma getD_range_map_lt {β : Type} (f : Nat → β) {n j : Nat} (h : j < n) (d : β) :
    ((List.range n).map f).getD j d = f j := by
  rw [getD_map_lt f _ (by simpa using h) d 0,
    List.getD_eq_getElem _ _ (by simpa using h), List.getElem_range]

lemma getD_zipWith_lt {α β γ : Type} (f : α → β → γ) (a : List α) (b : List β)
    {i : Nat} (h1 : i < a.length) (h2 : i < b.length) (d : γ) (da : α) (db : β) :
    (List.zipWith f a b).getD i d = f (a.getD i da) (b.getD i db) := by
  rw [List.getD_eq_getElem _ _ (by rw [List.length_zipWith]; omega),
    List.getElem_zipWith, List.getD_eq_getElem _ _ h1, List.getD_eq_getElem _ _ h2]

lemma list_sum_eq_range (l : List ℚ) :
    l.sum = ∑ j ∈ Finset.range l.length, l.getD j 0 := by
  induction l with
  | nil => simp
  | cons a t ih =>
    rw [List.sum_cons, List.length_cons, Finset.sum_range_succ' _ t.length]
    simp [ih, add_comm]

/-! ## Entry and shape lemmas for the numpy operations -/

namespace Mat

lemma get_out_row {M : Mat} {i : Nat} (h : M.length ≤ i) (j : Nat) :
    get M i j = 0 := by
  unfold get
  rw [List.getD_eq_default _ _ h]
  rfl

lemma cols_of_isRect {M : Mat} {r c : Nat} (h : IsRect M r c) (hr : 0 < r) :
    cols M = c := by
  obtain ⟨hlen, hrow⟩ := h
  have h0 := hrow 0 hr
  unfold cols
  cases M with
  | nil => simp at hlen; omega
  | cons a t => simpa using h0

lemma isRect_mapmap (g : ℚ → ℚ) {M : Mat} {r c : Nat} (h : IsRect M r c) :
    IsRect (M.map (List.map g)) r c := by
  obtain ⟨hlen, hrow⟩ := h
  refine ⟨by simpa using hlen, fun i hi => ?_⟩
  rw [getD_map_lt _ _ (by omega) [] []]
  simpa using hrow i hi

lemma get_mapmap (g : ℚ → ℚ) {M : Mat} {r c : Nat} (h : IsRect M r c)
    {i j : Nat} (hi : i < r) (hj : j < c) :
    get (M.map (List.map g)) i j = g (get M i j) := by
  obtain ⟨hlen, hrow⟩ := h
  unfold get
  rw [getD_map_lt _ _ (by omega) [] [],
    getD_map_lt _ _ (by rw [hrow i hi]; omega) 0 0]

lemma get_mapmap0 (g : ℚ → ℚ) (hg : g 0 = 0) (M : Mat) (i j : Nat) :
    get (M.map (List.map g)) i j = g (get M i j) := by
  unfold get
  by_cases hi : i < M.length
  · rw [getD_map_lt _ _ hi [] []]
    by_cases hj : j < (M.getD i []).length
    · rw [getD_map_lt _ _ hj 0 0]
    · have hj' : (List.map g (M.getD i [])).length ≤ j := by
        rw [List.length_map]; omega
      rw [List.getD_eq_default _ _ hj', List.getD_eq_default _ _ (by omega), hg]
  · have hi' : (M.map (List.map g)).length ≤ i := by
      rw [List.length_map]; omega
    rw [List.getD_eq_default _ _ hi', List.getD_eq_default _ _ (by omega : M.length ≤ i)]
    simp [hg]

lemma isRect_zipzip (f : ℚ → ℚ → ℚ) {A B : Mat} {r c : Nat}
    (hA : IsRect A r c) (hB : IsRect B r c) :
    IsRect (List.zipWith (List.zipWith f) A B) r c := by
  obtain ⟨hAl, hArow⟩ := hA
  obtain ⟨hBl, hBrow⟩ := hB
  refine ⟨by rw [List.length_zipWith]; omega, fun i hi => ?_⟩
  rw [getD_zipWith_lt _ _ _ (by omega) (by omega) [] [] []]
  rw [List.length_zipWith, hArow i hi, hBrow i hi]
  omega

lemma get_zipzip (f : ℚ → ℚ → ℚ) {A B : Mat} {r c : Nat}
    (hA : IsRect A r c) (hB : IsRect B r c) {i j : Nat} (hi : i < r) (hj : j < c) :
    get (List.zipWith (List.zipWith f) A B) i j = f (get A i j) (get B i j) := by
  obtain ⟨hAl, hArow⟩ := hA
  obtain ⟨hBl, hBrow⟩ := hB
  unfold get
  rw [getD_zipWith_lt _ _ _ (by omega) (by omega) [] [] [],
    getD_zipWith_lt _ _ _ (by rw [hArow i hi]; omega) (by rw [hBrow i hi]; omega) 0 0 0]

end Mat

/-! ## Entry and shape lemmas, per operation -/

lemma npDot_get {A : Mat} (B : Mat) {r K i j : Nat} (hA : Mat.IsRect A r K)
    (hi : i < r) (hj : j < B.cols) :
    Mat.get (npDot A B) i j = ∑ k ∈ Finset.range K, Mat.get A i k * Mat.get B k j := by
  obtain ⟨hAl, hArow⟩ := hA
  unfold npDot Mat.get
  rw [getD_map_lt _ _ (by omega) [] [], getD_range_map_lt _ hj 0, hArow i hi]

lemma npDot_isRect {A B : Mat} {r K c : Nat} (hAl : A.length = r)
    (hB : Mat.IsRect B K c) (hK : 0 < K) : Mat.IsRect (npDot A B) r c := by
  refine ⟨by simpa [npDot] using hAl, fun i hi => ?_⟩
  unfold npDot
  rw [getD_map_lt _ _ (by omega) [] []]
  simp [Mat.cols_of_isRect hB hK]

lemma npAddBias_get {Z b : Mat} {r c : Nat} (hZ : Mat.IsRect Z r c)
    (hbl : b.length = r) {i j : Nat} (hi : i < r) (hj : j < c) :
    Mat.get (npAddBias Z b) i j = Mat.get Z i j + Mat.get b i 0 := by
  obtain ⟨hZl, hZrow⟩ := hZ
  unfold npAddBias Mat.get
  rw [getD_zipWith_lt _ _ _ (by omega) (by omega) [] [] [],
    getD_map_lt _ _ (by rw [hZrow i hi]; omega) 0 0]

lemma npAddBias_isRect {Z b : Mat} {r c : Nat} (hZ : Mat.IsRect Z r c)
    (hbl : b.length = r) : Mat.IsRect (npAddBias Z b) r c := by
  obtain ⟨hZl, hZrow⟩ := hZ
  refine ⟨by rw [npAddBias, List.length_zipWith]; omega, fun i hi => ?_⟩
  unfold npAddBias
  rw [getD_zipWith_lt _ _ _ (by omega) (by omega) [] [] [], List.length_map]
  exact hZrow i hi

lemma npTranspose_get {M : Mat} {j : Nat} (hj : j < M.cols) (i : Nat) :
    Mat.get (npTranspose M) j i = Mat.get M i j := by
  unfold npTranspose Mat.get
  rw [getD_range_map_lt _ hj []]
  by_cases hi : i < M.length
  · rw [getD_map_lt _ _ hi 0 []]
  · have h0 : M.getD i [] = ([] : List ℚ) := List.getD_eq_default _ _ (by omega)
    rw [List.getD_eq_default _ _ (by rw [List.length_map]; omega), h0]
    rfl

lemma npTranspose_isRect (M : Mat) : Mat.IsRect (npTranspose M) M.cols M.length := by
  refine ⟨by simp [npTranspose], fun i hi => ?_⟩
  unfold npTranspose
  rw [getD_range_map_lt _ (by simpa using hi) []]
  simp

lemma npRowSum_get {M : Mat} {r c : Nat} (hM : Mat.IsRect M r c) {i : Nat}
    (hi : i < r) : Mat.get (npRowSum M) i 0 = ∑ j ∈ Finset.range c, Mat.get M i j := by
  obtain ⟨hMl, hMrow⟩ := hM
  unfold npRowSum Mat.get
  rw [getD_map_lt _ _ (by omega) [] []]
  show (M.getD i []).sum = _
  rw [list_sum_eq_range, hMrow i hi]

lemma npRowSum_isRect {M : Mat} {r c : Nat} (hM : Mat.IsRect M r c) :
    Mat.IsRect (npRowSum M) r 1 := by
  refine ⟨by rw [npRowSum, List.length_map, hM.1], fun i hi => ?_⟩
  unfold npRowSum
  rw [getD_map_lt _ _ (by rw [hM.1]; omega) [] []]
  rfl

lemma npSum_row1 {M : Mat} {c : Nat} (hM : Mat.IsRect M 1 c) :
    npSum M = ∑ j ∈ Finset.range c, Mat.get M 0 j := by
  obtain ⟨hMl, hMrow⟩ := hM
  obtain ⟨row, rfl⟩ := List.length_eq_one.mp hMl
  have hr : row.length = c := by simpa using hMrow 0 (by omega)
  unfold npSum Mat.get
  simp only [List.map, List.sum_cons, List.sum_nil, add_zero]
  rw [list_sum_eq_range, hr]
  rfl

/-! ## The ReLU-derivative mask -/

lemma npGtZero_relu_get (Z : Mat) (i j : Nat) :
    Mat.get (npGtZero (relu Z)) i j = if 0 < Mat.get Z i j then 1 else 0 := by
  rw [show npGtZero (relu Z) = (relu Z).map (List.map fun a => if 0 < a then (1 : ℚ) else 0) from rfl,
    Mat.get_mapmap0 _ (by norm_num) (relu Z) i j,
    show relu Z = Z.map (List.map fun t => max 0 t) from rfl,
    Mat.get_mapmap0 _ (by norm_num) Z i j]
  rcases lt_or_le 0 (Mat.get Z i j) with h | h
  · rw [if_pos h, if_pos (by rw [lt_max_iff]; right; exact h)]
  · rw [if_neg (by rw [lt_max_iff]; push_neg; exact ⟨le_refl 0, h⟩),
      if_neg (not_lt.mpr h)]

/-- C2: for a matching forward pass, the ReLU-derivative masks that
`backward_propagation_3layer` applies (the coerced comparisons `(A1 > 0)` and
`(A2 > 0)` on the cached post-activations) are `1` exactly at the entries
where the pre-activations `Z1` resp. `Z2` are strictly positive and `0`
otherwise; in particular the mask is `0` at a pre-activation of exactly `0`
or `-1`, and `1` at `+1`. -/
theorem relu_mask_tracks_preactivation (e : ℚ → ℚ) (X W1 b1 W2 b2 W3 b3 : Mat) :
    let Z1 := npAddBias (npDot W1 X) b1
    let A1 := relu Z1
    let Z2 := npAddBias (npDot W2 A1) b2
    let A2 := relu Z2
    (forward_propagation_3layer e X W1 b1 W2 b2 W3 b3 =
      (A1, A2, sigmoid e (npAddBias (npDot W3 A2) b3)))
    ∧ (∀ i j, Mat.get (npGtZero A1) i j = if 0 < Mat.get Z1 i j then 1 else 0)
    ∧ (∀ i j, Mat.get (npGtZero A2) i j = if 0 < Mat.get Z2 i j then 1 else 0)
    ∧ npGtZero (relu [[0, -1, 1]]) = [[0, 0, 1]] := by
  refine ⟨rfl, fun i j => npGtZero_relu_get _ i j, fun i j => npGtZero_relu_get _ i j, ?_⟩
  norm_num [npGtZero, relu]

/-- C6 counterexample: two forward passes (inputs `-1` and `-2` through the
same 1-unit-per-layer parameters) produce bitwise identical caches
`(A1, A2, A3)` although their layer-1 pre-activations differ, so the value
returned by `forward_propagation_3layer` does not retain (nor determine) the
pre-activations `Z1, Z2, Z3` of the pass. -/
theorem forward_cache_drops_preactivations :
    (forward_propagation_3layer (fun _ => 1) [[-1]] [[1]] [[0]] [[1]] [[0]] [[1]] [[0]] =
      forward_propagation_3layer (fun _ => 1) [[-2]] [[1]] [[0]] [[1]] [[0]] [[1]] [[0]])
    ∧ npAddBias (npDot [[1]] [[-1]]) [[0]] ≠ npAddBias (npDot [[1]] [[-2]]) [[0]] := by
  constructor
  · norm_num [forward_propagation_3layer, npDot, npAddBias, relu, sigmoid,
      Mat.cols, Finset.sum_range_one, List.range_succ]
  · norm_num [npDot, npAddBias, Mat.cols, Finset.sum_range_one, List.range_succ]

/-- C6 amended: forward propagation retains and hands to the matching
backward step the post-activations `A1, A2, A3` of the pass (`X` itself is
passed to backward separately); the pre-activations are not part of the
cache, and the ReLU-mask information backward needs is fully recovered from
the retained post-activations, whose `> 0` mask coincides entrywise with the
`> 0` mask of the pre-activations of the same pass. -/
theorem forward_cache_retains_postactivations (e l : ℚ → ℚ) (X y : Mat)
    (α : ℚ) (p : Params) :
    let Z1 := npAddBias (npDot p.W1 X) p.b1
    let A1 := relu Z1
    let Z2 := npAddBias (npDot p.W2 A1) p.b2
    let A2 := relu Z2
    let Z3 := npAddBias (npDot p.W3 A2) p.b3
    let A3 := sigmoid e Z3
    (forward_propagation_3layer e X p.W1 p.b1 p.W2 p.b2 p.W3 p.b3 = (A1, A2, A3))
    ∧ (epochStep e l X y α p =
        match backward_propagation_3layer X y A1 A2 A3 p.W2 p.W3 with
        | (dW1, db1, dW2, db2, dW3, db3) =>
          match update_parameters_3layer p.W1 p.b1 p.W2 p.b2 p.W3 p.b3
              dW1 db1 dW2 db2 dW3 db3 α with
          | (W1, b1, W2, b2, W3, b3) => ⟨W1, b1, W2, b2, W3, b3⟩)
    ∧ (epochCost e l X y p = compute_cost_3layer l A3 y)
    ∧ (∀ i j, Mat.get (npGtZero A1) i j = if 0 < Mat.get Z1 i j then 1 else 0)
    ∧ (∀ i j, Mat.get (npGtZero A2) i j = if 0 < Mat.get Z2 i j then 1 else 0) :=
  ⟨rfl, rfl, rfl, fun i j => npGtZero_relu_get _ i j, fun i j => npGtZero_relu_get _ i j⟩

/-- C7: on well-shaped inputs, forward propagation computes, layer by layer
with `A0 = X`, the pre-activations `Z = W · A_prev + b` (bias broadcast
across the `m` columns) and the post-activations `A = ReLU(Z) = max(0, Z)`
for the hidden layers and `A3 = sigmoid(Z3) = 1 / (1 + exp(-Z3))` for the
final layer, entry for entry. -/
theorem forward_propagation_layer_equations (e : ℚ → ℚ) (X W1 b1 W2 b2 W3 b3 : Mat)
    (n0 n1 n2 n3 m : Nat)
    (hX : Mat.IsRect X n0 m) (hW1 : Mat.IsRect W1 n1 n0) (hb1 : b1.length = n1)
    (hW2 : Mat.IsRect W2 n2 n1) (hb2 : b2.length = n2)
    (hW3 : Mat.IsRect W3 n3 n2) (hb3 : b3.length = n3)
    (hn0 : 0 < n0) (hn1 : 0 < n1) (hn2 : 0 < n2) (hm : 0 < m) :
    let Z1 := npAddBias (npDot W1 X) b1
    let A1 := relu Z1
    let Z2 := npAddBias (npDot W2 A1) b2
    let A2 := relu Z2
    let Z3 := npAddBias (npDot W3 A2) b3
    let A3 := sigmoid e Z3
    (forward_propagation_3layer e X W1 b1 W2 b2 W3 b3 = (A1, A2, A3))
    ∧ (∀ i j, i < n1 → j < m → Mat.get Z1 i j =
        (∑ k ∈ Finset.range n0, Mat.get W1 i k * Mat.get X k j) + Mat.get b1 i 0)
    ∧ (∀ i j, Mat.get A1 i j = max 0 (Mat.get Z1 i j))
    ∧ (∀ i j, i < n2 → j < m → Mat.get Z2 i j =
        (∑ k ∈ Finset.range n1, Mat.get W2 i k * Mat.get A1 k j) + Mat.get b2 i 0)
    ∧ (∀ i j, Mat.get A2 i j = max 0 (Mat.get Z2 i j))
    ∧ (∀ i j, i < n3 → j < m → Mat.get Z3 i j =
        (∑ k ∈ Finset.range n2, Mat.get W3 i k * Mat.get A2 k j) + Mat.get b3 i 0)
    ∧ (∀ i j, i < n3 → j < m → Mat.get A3 i j =
        1 / (1 + e (-Mat.get Z3 i j))) := by
  intro Z1 A1 Z2 A2 Z3 A3
  have hZ1 : Mat.IsRect Z1 n1 m := npAddBias_isRect (npDot_isRect hW1.1 hX hn0) hb1
  have hA1 : Mat.IsRect A1 n1 m := Mat.isRect_mapmap _ hZ1
  have hZ2 : Mat.IsRect Z2 n2 m := npAddBias_isRect (npDot_isRect hW2.1 hA1 hn1) hb2
  have hA2 : Mat.IsRect A2 n2 m := Mat.isRect_mapmap _ hZ2
  have hZ3 : Mat.IsRect Z3 n3 m := npAddBias_isRect (npDot_isRect hW3.1 hA2 hn2) hb3
  refine ⟨rfl, ?_, ?_, ?_, ?_, ?_, ?_⟩
  · intro i j hi hj
    rw [npAddBias_get (npDot_isRect hW1.1 hX hn0) hb1 hi hj,
      npDot_get X hW1 hi (by rw [Mat.cols_of_isRect hX hn0]; exact hj)]
  · intro i j
    exact Mat.get_mapmap0 _ (by norm_num) _ i j
  · intro i j hi hj
    rw [npAddBias_get (npDot_isRect hW2.1 hA1 hn1) hb2 hi hj,
      npDot_get A1 hW2 hi (by rw [Mat.cols_of_isRect hA1 hn1]; exact hj)]
  · intro i j
    exact Mat.get_mapmap0 _ (by norm_num) _ i j
  · intro i j hi hj
    rw [npAddBias_get (npDot_isRect hW3.1 hA2 hn2) hb3 hi hj,
      npDot_get A2 hW3 hi (by rw [Mat.cols_of_isRect hA2 hn2]; exact hj)]
  · intro i j hi hj
    exact Mat.get_mapmap _ hZ3 hi hj

theorem forward_propagation_layer_equations_witness :
    Mat.get (npAddBias (npDot [[1]] [[1]]) [[0]]) 0 0 =
      (∑ k ∈ Finset.range 1, Mat.get [[1]] 0 k * Mat.get [[1]] k 0) +
        Mat.get [[0]] 0 0 := by
  exact (forward_propagation_layer_equations id [[1]] [[1]] [[0]] [[1]] [[0]] [[1]] [[0]]
    1 1 1 1 1 (by decide) (by decide) (by decide) (by decide) (by decide)
    (by decide) (by decide) (by decide) (by decide) (by decide) (by decide)).2.1
    0 0 (by decide) (by decide)

/-! ## Wrappers for the elementwise operations -/

lemma npAdd_get {A B : Mat} {r c i j : Nat} (hA : Mat.IsRect A r c)
    (hB : Mat.IsRect B r c) (hi : i < r) (hj : j < c) :
    Mat.get (npAdd A B) i j = Mat.get A i j + Mat.get B i j :=
  Mat.get_zipzip _ hA hB hi hj

lemma npSub_get {A B : Mat} {r c i j : Nat} (hA : Mat.IsRect A r c)
    (hB : Mat.IsRect B r c) (hi : i < r) (hj : j < c) :
    Mat.get (npSub A B) i j = Mat.get A i j - Mat.get B i j :=
  Mat.get_zipzip _ hA hB hi hj

lemma npMul_get {A B : Mat} {r c i j : Nat} (hA : Mat.IsRect A r c)
    (hB : Mat.IsRect B r c) (hi : i < r) (hj : j < c) :
    Mat.get (npMul A B) i j = Mat.get A i j * Mat.get B i j :=
  Mat.get_zipzip _ hA hB hi hj

lemma npLog_get (l : ℚ → ℚ) {A : Mat} {r c i j : Nat} (hA : Mat.IsRect A r c)
    (hi : i < r) (hj : j < c) : Mat.get (npLog l A) i j = l (Mat.get A i j) :=
  Mat.get_mapmap _ hA hi hj

lemma npOneSub_get {A : Mat} {r c i j : Nat} (hA : Mat.IsRect A r c)
    (hi : i < r) (hj : j < c) : Mat.get (npOneSub A) i j = 1 - Mat.get A i j :=
  Mat.get_mapmap _ hA hi hj

lemma npDiv_get (A : Mat) (a : ℚ) (i j : Nat) :
    Mat.get (npDiv A a) i j = Mat.get A i j / a :=
  Mat.get_mapmap0 _ (zero_div a) A i j

lemma npScale_get (a : ℚ) (A : Mat) (i j : Nat) :
    Mat.get (npScale a A) i j = a * Mat.get A i j :=
  Mat.get_mapmap0 _ (mul_zero a) A i j

lemma npAdd_isRect {A B : Mat} {r c : Nat} (hA : Mat.IsRect A r c)
    (hB : Mat.IsRect B r c) : Mat.IsRect (npAdd A B) r c :=
  Mat.isRect_zipzip _ hA hB

lemma npSub_isRect {A B : Mat} {r c : Nat} (hA : Mat.IsRect A r c)
    (hB : Mat.IsRect B r c) : Mat.IsRect (npSub A B) r c :=
  Mat.isRect_zipzip _ hA hB

lemma npMul_isRect {A B : Mat} {r c : Nat} (hA : Mat.IsRect A r c)
    (hB : Mat.IsRect B r c) : Mat.IsRect (npMul A B) r c :=
  Mat.isRect_zipzip _ hA hB

lemma npLog_isRect (l : ℚ → ℚ) {A : Mat} {r c : Nat} (hA : Mat.IsRect A r c) :
    Mat.IsRect (npLog l A) r c := Mat.isRect_mapmap _ hA

lemma npOneSub_isRect {A : Mat} {r c : Nat} (hA : Mat.IsRect A r c) :
    Mat.IsRect (npOneSub A) r c := Mat.isRect_mapmap _ hA

lemma npDiv_isRect {A : Mat} {r c : Nat} (a : ℚ) (hA : Mat.IsRect A r c) :
    Mat.IsRect (npDiv A a) r c := Mat.isRect_mapmap _ hA

lemma npGtZero_isRect {A : Mat} {r c : Nat} (hA : Mat.IsRect A r c) :
    Mat.IsRect (npGtZero A) r c := Mat.isRect_mapmap _ hA

lemma relu_isRect {A : Mat} {r c : Nat} (hA : Mat.IsRect A r c) :
    Mat.IsRect (relu A) r c := Mat.isRect_mapmap _ hA

lemma sigmoid_isRect (e : ℚ → ℚ) {A : Mat} {r c : Nat} (hA : Mat.IsRect A r c) :
    Mat.IsRect (sigmoid e A) r c := Mat.isRect_mapmap _ hA

/-- C8: on a `(1, m)` output matrix `A3` with entries strictly inside `(0,1)`
and labels `y` of the same shape, `compute_cost_3layer` returns the scalar
binary cross-entropy
`-(1/m) * Σ_i (y_i * log(A3_i) + (1 - y_i) * log(1 - A3_i))`. -/
theorem compute_cost_is_binary_cross_entropy (l : ℚ → ℚ) (A3 y : Mat) (m : Nat)
    (hA3 : Mat.IsRect A3 1 m) (hy : Mat.IsRect y 1 m) (hm : 0 < m)
    (hin : ∀ j, j < m → 0 < Mat.get A3 0 j ∧ Mat.get A3 0 j < 1) :
    compute_cost_3layer l A3 y =
      -(∑ j ∈ Finset.range m,
          (Mat.get y 0 j * l (Mat.get A3 0 j) +
            (1 - Mat.get y 0 j) * l (1 - Mat.get A3 0 j))) / (m : ℚ) := by
  have hL1 : Mat.IsRect (npLog l A3) 1 m := npLog_isRect l hA3
  have h1y : Mat.IsRect (npOneSub y) 1 m := npOneSub_isRect hy
  have h1A : Mat.IsRect (npOneSub A3) 1 m := npOneSub_isRect hA3
  have hL2 : Mat.IsRect (npLog l (npOneSub A3)) 1 m := npLog_isRect l h1A
  have hM1 : Mat.IsRect (npMul y (npLog l A3)) 1 m := npMul_isRect hy hL1
  have hM2 : Mat.IsRect (npMul (npOneSub y) (npLog l (npOneSub A3))) 1 m :=
    npMul_isRect h1y hL2
  have hT : Mat.IsRect (npAdd (npMul y (npLog l A3))
      (npMul (npOneSub y) (npLog l (npOneSub A3)))) 1 m := npAdd_isRect hM1 hM2
  unfold compute_cost_3layer
  rw [Mat.cols_of_isRect hy one_pos, npSum_row1 hT]
  congr 2
  refine Finset.sum_congr rfl fun j hj => ?_
  have hj' : j < m := Finset.mem_range.mp hj
  rw [npAdd_get hM1 hM2 one_pos hj', npMul_get hy hL1 one_pos hj',
    npMul_get h1y hL2 one_pos hj', npLog_get l hA3 one_pos hj',
    npOneSub_get hy one_pos hj', npLog_get l h1A one_pos hj',
    npOneSub_get hA3 one_pos hj']

theorem compute_cost_is_binary_cross_entropy_witness :
    compute_cost_3layer id [[1/2]] [[1]] =
      -(∑ j ∈ Finset.range 1,
          (Mat.get [[1]] 0 j * id (Mat.get [[1/2]] 0 j) +
            (1 - Mat.get [[1]] 0 j) * id (1 - Mat.get [[1/2]] 0 j))) / ((1 : Nat) : ℚ) := by
  exact compute_cost_is_binary_cross_entropy id [[1/2]] [[1]] 1 (by decide) (by decide)
    (by decide) (fun j hj => by interval_cases j; constructor <;> norm_num [Mat.get])

/-- C1: on a well-shaped forward cache and labels `y` of shape `(1, m)`,
backward propagation satisfies the closed forms: `dZ3 = A3 - y` at the output
layer, and for every layer the weight gradient is
`dW = (1/m) * dZ * A_prev^T` and the bias gradient is `(1/m)` times the
row-wise sum of the columns of `dZ`, returned as a column vector (here
`dZ2` and `dZ1` are the hidden-layer error terms the code computes). -/
theorem backward_propagation_closed_forms (X y A1 A2 A3 W2 W3 : Mat)
    (n0 n1 n2 m : Nat)
    (hX : Mat.IsRect X n0 m) (hy : Mat.IsRect y 1 m)
    (hA1 : Mat.IsRect A1 n1 m) (hA2 : Mat.IsRect A2 n2 m) (hA3 : Mat.IsRect A3 1 m)
    (hW2 : Mat.IsRect W2 n2 n1) (hW3 : Mat.IsRect W3 1 n2)
    (hn0 : 0 < n0) (hn1 : 0 < n1) (hn2 : 0 < n2) (hm : 0 < m) :
    let dZ3 := npSub A3 y
    let dZ2 := npMul (npDot (npTranspose W3) dZ3) (npGtZero A2)
    let dZ1 := npMul (npDot (npTranspose W2) dZ2) (npGtZero A1)
    let out := backward_propagation_3layer X y A1 A2 A3 W2 W3
    (∀ i j, i < 1 → j < m → Mat.get dZ3 i j = Mat.get A3 i j - Mat.get y i j)
    ∧ (∀ i j, i < 1 → j < n2 → Mat.get out.2.2.2.2.1 i j =
        (∑ k ∈ Finset.range m, Mat.get dZ3 i k * Mat.get A2 j k) / (m : ℚ))
    ∧ (Mat.IsRect out.2.2.2.2.2 1 1 ∧ ∀ i, i < 1 → Mat.get out.2.2.2.2.2 i 0 =
        (∑ k ∈ Finset.range m, Mat.get dZ3 i k) / (m : ℚ))
    ∧ (∀ i j, i < n2 → j < n1 → Mat.get out.2.2.1 i j =
        (∑ k ∈ Finset.range m, Mat.get dZ2 i k * Mat.get A1 j k) / (m : ℚ))
    ∧ (Mat.IsRect out.2.2.2.1 n2 1 ∧ ∀ i, i < n2 → Mat.get out.2.2.2.1 i 0 =
        (∑ k ∈ Finset.range m, Mat.get dZ2 i k) / (m : ℚ))
    ∧ (∀ i j, i < n1 → j < n0 → Mat.get out.1 i j =
        (∑ k ∈ Finset.range m, Mat.get dZ1 i k * Mat.get X j k) / (m : ℚ))
    ∧ (Mat.IsRect out.2.1 n1 1 ∧ ∀ i, i < n1 → Mat.get out.2.1 i 0 =
        (∑ k ∈ Finset.range m, Mat.get dZ1 i k) / (m : ℚ)) := by
  intro dZ3 dZ2 dZ1 out
  have hXc : ((Mat.cols X : ℚ)) = (m : ℚ) := by rw [Mat.cols_of_isRect hX hn0]
  have hdZ3 : Mat.IsRect dZ3 1 m := npSub_isRect hA3 hy
  have hW3t : Mat.IsRect (npTranspose W3) n2 1 := by
    have h := npTranspose_isRect W3
    rwa [Mat.cols_of_isRect hW3 one_pos, hW3.1] at h
  have hW2t : Mat.IsRect (npTranspose W2) n1 n2 := by
    have h := npTranspose_isRect W2
    rwa [Mat.cols_of_isRect hW2 hn2, hW2.1] at h
  have hdZ2 : Mat.IsRect dZ2 n2 m :=
    npMul_isRect (npDot_isRect hW3t.1 hdZ3 one_pos) (npGtZero_isRect hA2)
  have hdZ1 : Mat.IsRect dZ1 n1 m :=
    npMul_isRect (npDot_isRect hW2t.1 hdZ2 hn2) (npGtZero_isRect hA1)
  have hA2t : Mat.IsRect (npTranspose A2) m n2 := by
    have h := npTranspose_isRect A2
    rwa [Mat.cols_of_isRect hA2 hn2, hA2.1] at h
  have hA1t : Mat.IsRect (npTranspose A1) m n1 := by
    have h := npTranspose_isRect A1
    rwa [Mat.cols_of_isRect hA1 hn1, hA1.1] at h
  have hXt : Mat.IsRect (npTranspose X) m n0 := by
    have h := npTranspose_isRect X
    rwa [Mat.cols_of_isRect hX hn0, hX.1] at h
  have hout : out =
      (npDiv (npDot dZ1 (npTranspose X)) (m : ℚ),
       npDiv (npRowSum dZ1) (m : ℚ),
       npDiv (npDot dZ2 (npTranspose A1)) (m : ℚ),
       npDiv (npRowSum dZ2) (m : ℚ),
       npDiv (npDot dZ3 (npTranspose A2)) (m : ℚ),
       npDiv (npRowSum dZ3) (m : ℚ)) := by
    have h0 : out =
        (npDiv (npDot dZ1 (npTranspose X)) ((Mat.cols X : ℚ)),
         npDiv (npRowSum dZ1) ((Mat.cols X : ℚ)),
         npDiv (npDot dZ2 (npTranspose A1)) ((Mat.cols X : ℚ)),
         npDiv (npRowSum dZ2) ((Mat.cols X : ℚ)),
         npDiv (npDot dZ3 (npTranspose A2)) ((Mat.cols X : ℚ)),
         npDiv (npRowSum dZ3) ((Mat.cols X : ℚ))) := rfl
    rw [h0, hXc]
  rw [hout]
  dsimp only
  refine ⟨fun i j hi hj => npSub_get hA3 hy hi hj, ?_, ?_, ?_, ?_, ?_, ?_⟩
  · intro i j hi hj
    rw [npDiv_get, npDot_get (npTranspose A2) hdZ3 hi
      (by rw [Mat.cols_of_isRect hA2t hm]; exact hj)]
    congr 1
    refine Finset.sum_congr rfl fun k hk => ?_
    have hkc : k < Mat.cols A2 := by
      rw [Mat.cols_of_isRect hA2 hn2]; exact Finset.mem_range.mp hk
    rw [npTranspose_get hkc j]
  · exact ⟨npDiv_isRect _ (npRowSum_isRect hdZ3),
      fun i hi => by rw [npDiv_get, npRowSum_get hdZ3 hi]⟩
  · intro i j hi hj
    rw [npDiv_get, npDot_get (npTranspose A1) hdZ2 hi
      (by rw [Mat.cols_of_isRect hA1t hm]; exact hj)]
    congr 1
    refine Finset.sum_congr rfl fun k hk => ?_
    have hkc : k < Mat.cols A1 := by
      rw [Mat.cols_of_isRect hA1 hn1]; exact Finset.mem_range.mp hk
    rw [npTranspose_get hkc j]
  · exact ⟨npDiv_isRect _ (npRowSum_isRect hdZ2),
      fun i hi => by rw [npDiv_get, npRowSum_get hdZ2 hi]⟩
  · intro i j hi hj
    rw [npDiv_get, npDot_get (npTranspose X) hdZ1 hi
      (by rw [Mat.cols_of_isRect hXt hm]; exact hj)]
    congr 1
    refine Finset.sum_congr rfl fun k hk => ?_
    have hkc : k < Mat.cols X := by
      rw [Mat.cols_of_isRect hX hn0]; exact Finset.mem_range.mp hk
    rw [npTranspose_get hkc j]
  · exact ⟨npDiv_isRect _ (npRowSum_isRect hdZ1),
      fun i hi => by rw [npDiv_get, npRowSum_get hdZ1 hi]⟩

theorem backward_propagation_closed_forms_witness :
    Mat.get (npSub [[1/2]] [[0]]) 0 0 = Mat.get [[1/2]] 0 0 - Mat.get [[0]] 0 0 := by
  exact (backward_propagation_closed_forms [[1]] [[0]] [[1]] [[1]] [[1/2]] [[1]] [[1]]
    1 1 1 1 (by decide) (by decide) (by decide) (by decide) (by decide) (by decide)
    (by decide) (by decide) (by decide) (by decide) (by decide)).1 0 0
    (by decide) (by decide)

/-- C9: for well-shaped parameters over widths `n0, n1, n2, n3` and a batch
of `m ≥ 1` samples, forward propagation produces `A3` of shape `(n3, m)`
(and hidden activations of shapes `(n1, m)`, `(n2, m)`), and backward
propagation on that cache produces each `dW` with the shape of the matching
`W` and each `db` with the shape of the matching `b` (a column of the layer
width). -/
theorem forward_backward_shape_invariants (e : ℚ → ℚ) (X y W1 b1 W2 b2 W3 b3 : Mat)
    (n0 n1 n2 n3 m : Nat)
    (hX : Mat.IsRect X n0 m) (hy : Mat.IsRect y n3 m)
    (hW1 : Mat.IsRect W1 n1 n0) (hb1 : Mat.IsRect b1 n1 1)
    (hW2 : Mat.IsRect W2 n2 n1) (hb2 : Mat.IsRect b2 n2 1)
    (hW3 : Mat.IsRect W3 n3 n2) (hb3 : Mat.IsRect b3 n3 1)
    (hn0 : 0 < n0) (hn1 : 0 < n1) (hn2 : 0 < n2) (hn3 : 0 < n3) (hm : 1 ≤ m) :
    let fw := forward_propagation_3layer e X W1 b1 W2 b2 W3 b3
    let gr := backward_propagation_3layer X y fw.1 fw.2.1 fw.2.2 W2 W3
    (Mat.IsRect fw.1 n1 m ∧ Mat.IsRect fw.2.1 n2 m ∧ Mat.IsRect fw.2.2 n3 m)
    ∧ (Mat.IsRect gr.1 n1 n0 ∧ Mat.IsRect gr.2.1 n1 1
        ∧ Mat.IsRect gr.2.2.1 n2 n1 ∧ Mat.IsRect gr.2.2.2.1 n2 1
        ∧ Mat.IsRect gr.2.2.2.2.1 n3 n2 ∧ Mat.IsRect gr.2.2.2.2.2 n3 1) := by
  intro fw gr
  have hm' : 0 < m := hm
  have hZ1 : Mat.IsRect (npAddBias (npDot W1 X) b1) n1 m :=
    npAddBias_isRect (npDot_isRect hW1.1 hX hn0) hb1.1
  have hA1 : Mat.IsRect fw.1 n1 m := relu_isRect hZ1
  have hZ2 : Mat.IsRect (npAddBias (npDot W2 fw.1) b2) n2 m :=
    npAddBias_isRect (npDot_isRect hW2.1 hA1 hn1) hb2.1
  have hA2 : Mat.IsRect fw.2.1 n2 m := relu_isRect hZ2
  have hZ3 : Mat.IsRect (npAddBias (npDot W3 fw.2.1) b3) n3 m :=
    npAddBias_isRect (npDot_isRect hW3.1 hA2 hn2) hb3.1
  have hA3 : Mat.IsRect fw.2.2 n3 m := sigmoid_isRect e hZ3
  have hdZ3 : Mat.IsRect (npSub fw.2.2 y) n3 m := npSub_isRect hA3 hy
  have hW3t : Mat.IsRect (npTranspose W3) n2 n3 := by
    have h := npTranspose_isRect W3
    rwa [Mat.cols_of_isRect hW3 hn3, hW3.1] at h
  have hW2t : Mat.IsRect (npTranspose W2) n1 n2 := by
    have h := npTranspose_isRect W2
    rwa [Mat.cols_of_isRect hW2 hn2, hW2.1] at h
  have hdZ2 : Mat.IsRect (npMul (npDot (npTranspose W3) (npSub fw.2.2 y))
      (npGtZero fw.2.1)) n2 m :=
    npMul_isRect (npDot_isRect hW3t.1 hdZ3 hn3) (npGtZero_isRect hA2)
  have hdZ1 : Mat.IsRect (npMul (npDot (npTranspose W2)
      (npMul (npDot (npTranspose W3) (npSub fw.2.2 y)) (npGtZero fw.2.1)))
      (npGtZero fw.1)) n1 m :=
    npMul_isRect (npDot_isRect hW2t.1 hdZ2 hn2) (npGtZero_isRect hA1)
  have hA2t : Mat.IsRect (npTranspose fw.2.1) m n2 := by
    have h := npTranspose_isRect fw.2.1
    rwa [Mat.cols_of_isRect hA2 hn2, hA2.1] at h
  have hA1t : Mat.IsRect (npTranspose fw.1) m n1 := by
    have h := npTranspose_isRect fw.1
    rwa [Mat.cols_of_isRect hA1 hn1, hA1.1] at h
  have hXt : Mat.IsRect (npTranspose X) m n0 := by
    have h := npTranspose_isRect X
    rwa [Mat.cols_of_isRect hX hn0, hX.1] at h
  refine ⟨⟨hA1, hA2, hA3⟩,
    npDiv_isRect _ (npDot_isRect hdZ1.1 hXt hm'),
    npDiv_isRect _ (npRowSum_isRect hdZ1),
    npDiv_isRect _ (npDot_isRect hdZ2.1 hA1t hm'),
    npDiv_isRect _ (npRowSum_isRect hdZ2),
    npDiv_isRect _ (npDot_isRect hdZ3.1 hA2t hm'),
    npDiv_isRect _ (npRowSum_isRect hdZ3)⟩

theorem forward_backward_shape_invariants_witness :
    let fw := forward_propagation_3layer id [[1]] [[1]] [[0]] [[1]] [[0]] [[1]] [[0]]
    let gr := backward_propagation_3layer [[1]] [[0]] fw.1 fw.2.1 fw.2.2 [[1]] [[1]]
    (Mat.IsRect fw.1 1 1 ∧ Mat.IsRect fw.2.1 1 1 ∧ Mat.IsRect fw.2.2 1 1)
    ∧ (Mat.IsRect gr.1 1 1 ∧ Mat.IsRect gr.2.1 1 1
        ∧ Mat.IsRect gr.2.2.1 1 1 ∧ Mat.IsRect gr.2.2.2.1 1 1
        ∧ Mat.IsRect gr.2.2.2.2.1 1 1 ∧ Mat.IsRect gr.2.2.2.2.2 1 1) := by
  exact forward_backward_shape_invariants id [[1]] [[0]] [[1]] [[0]] [[1]] [[0]] [[1]] [[0]]
    1 1 1 1 1 (by decide) (by decide) (by decide) (by decide) (by decide) (by decide)
    (by decide) (by decide) (by decide) (by decide) (by decide) (by decide) (by decide)

/-! ## Parameter initialization and update: no validation in the source -/

lemma npZeros_isRect (r c : Nat) : Mat.IsRect (npZeros r c) r c := by
  unfold npZeros
  refine ⟨List.length_replicate r _, fun i hi => ?_⟩
  rw [List.getD_eq_getElem _ _ (by rw [List.length_replicate]; omega),
    List.getElem_replicate, List.length_replicate]

/-- C4 counterexample: with the non-positive width `n_x = 0` (and a width
list of the fixed arity four, so a shorter list is not even expressible),
`initialize_parameters_3layer` raises nothing and returns a full parameter
set whose first weight matrix has four empty rows — no configuration error
occurs. -/
theorem initialize_accepts_zero_width :
    initialize_parameters_3layer npZeros 0 4 3 1 =
      ([[], [], [], []], [[0], [0], [0], [0]],
       [[0, 0, 0, 0], [0, 0, 0, 0], [0, 0, 0, 0]], [[0], [0], [0]],
       [[0, 0, 0]], [[0]]) := by
  norm_num [initialize_parameters_3layer, npScale, npZeros, List.replicate_succ]

/-- C4 amended: parameter initialization performs no width validation: for
every four widths (zero included) it totally returns weights
`0.01 * randn(n_cur, n_prev)` of the corresponding shapes and bias columns
that are exactly zero; a zero width yields empty matrices rather than a
configuration error. -/
theorem initialize_parameters_no_validation (randn : Nat → Nat → Mat)
    (n_x n_h1 n_h2 n_y : Nat) (hrandn : ∀ r c, Mat.IsRect (randn r c) r c) :
    let out := initialize_parameters_3layer randn n_x n_h1 n_h2 n_y
    (Mat.IsRect out.1 n_h1 n_x ∧ out.2.1 = npZeros n_h1 1
      ∧ Mat.IsRect out.2.2.1 n_h2 n_h1 ∧ out.2.2.2.1 = npZeros n_h2 1
      ∧ Mat.IsRect out.2.2.2.2.1 n_y n_h2 ∧ out.2.2.2.2.2 = npZeros n_y 1)
    ∧ (∀ i j, Mat.get out.1 i j = (1 / 100) * Mat.get (randn n_h1 n_x) i j)
    ∧ (∀ i j, Mat.get out.2.2.1 i j = (1 / 100) * Mat.get (randn n_h2 n_h1) i j)
    ∧ (∀ i j, Mat.get out.2.2.2.2.1 i j = (1 / 100) * Mat.get (randn n_y n_h2) i j) := by
  refine ⟨⟨Mat.isRect_mapmap _ (hrandn n_h1 n_x), rfl,
    Mat.isRect_mapmap _ (hrandn n_h2 n_h1), rfl,
    Mat.isRect_mapmap _ (hrandn n_y n_h2), rfl⟩, ?_, ?_, ?_⟩
  all_goals intro i j
  · exact npScale_get _ _ i j
  · exact npScale_get _ _ i j
  · exact npScale_get _ _ i j

theorem initialize_parameters_no_validation_witness :
    Mat.IsRect (initialize_parameters_3layer npZeros 0 4 3 1).1 4 0 :=
  (initialize_parameters_no_validation npZeros 0 4 3 1 npZeros_isRect).1.1

/-- C5 counterexample: at the non-positive learning rate `α = -1` the update
is carried out rather than rejected: on all-ones parameters and gradients it
returns the gradient-step values `1 - (-1) * 1 = 2` everywhere. -/
theorem update_applies_nonpositive_learning_rate :
    update_parameters_3layer [[1]] [[1]] [[1]] [[1]] [[1]] [[1]]
      [[1]] [[1]] [[1]] [[1]] [[1]] [[1]] (-1) =
      ([[2]], [[2]], [[2]], [[2]], [[2]], [[2]]) := by
  norm_num [update_parameters_3layer, npSub, npScale]

/-- C5 amended: neither the update step nor the training loop validates the
learning rate: for every `α`, including every `α ≤ 0`, the update is applied
and returns `W - α * dW` and `b - α * db` (entrywise on well-shaped inputs),
and one epoch of the training loop performs exactly this update at the given
`α`. -/
theorem update_parameters_applies_any_rate
    (W1 b1 W2 b2 W3 b3 dW1 db1 dW2 db2 dW3 db3 : Mat) (α : ℚ) :
    (update_parameters_3layer W1 b1 W2 b2 W3 b3 dW1 db1 dW2 db2 dW3 db3 α =
      (npSub W1 (npScale α dW1), npSub b1 (npScale α db1),
       npSub W2 (npScale α dW2), npSub b2 (npScale α db2),
       npSub W3 (npScale α dW3), npSub b3 (npScale α db3)))
    ∧ (∀ r c i j, Mat.IsRect W1 r c → Mat.IsRect dW1 r c → i < r → j < c →
        Mat.get (update_parameters_3layer W1 b1 W2 b2 W3 b3
          dW1 db1 dW2 db2 dW3 db3 α).1 i j =
          Mat.get W1 i j - α * Mat.get dW1 i j)
    ∧ (∀ (e l : ℚ → ℚ) (X y : Mat) (p : Params),
        trainLoop e l X y α 1 0 p =
          (epochStep e l X y α p, [epochCost e l X y p])) := by
  refine ⟨rfl, fun r c i j hW hdW hi hj => ?_, fun e l X y p => rfl⟩
  have hs : Mat.IsRect (npScale α dW1) r c := Mat.isRect_mapmap _ hdW
  rw [show (update_parameters_3layer W1 b1 W2 b2 W3 b3
      dW1 db1 dW2 db2 dW3 db3 α).1 = npSub W1 (npScale α dW1) from rfl,
    npSub_get hW hs hi hj, npScale_get]

/-! ## The training loop -/

lemma trainLoop_succ (e l : ℚ → ℚ) (X y : Mat) (α : ℚ) (n i : Nat) (p : Params) :
    trainLoop e l X y α (n + 1) i p =
      ((trainLoop e l X y α n (i + 1) (epochStep e l X y α p)).1,
        if i % 100 = 0 then
          epochCost e l X y p ::
            (trainLoop e l X y α n (i + 1) (epochStep e l X y α p)).2
        else (trainLoop e l X y α n (i + 1) (epochStep e l X y α p)).2) := rfl

lemma trainLoop_spec_aux (e l : ℚ → ℚ) (X y : Mat) (α : ℚ) :
    ∀ (n i : Nat) (p : Params),
      ((trainLoop e l X y α n i p).1 = (epochStep e l X y α)^[n] p)
      ∧ ((trainLoop e l X y α n i p).2.length =
          (n + 99 - (100 - i % 100) % 100) / 100)
      ∧ (∀ k, ((trainLoop e l X y α n i p).2)[k]? =
          if (100 - i % 100) % 100 + 100 * k < n then
            some (epochCost e l X y
              ((epochStep e l X y α)^[(100 - i % 100) % 100 + 100 * k] p))
          else none) := by
  intro n
  induction n with
  | zero =>
    intro i p
    refine ⟨rfl, ?_, fun k => ?_⟩
    · show ([] : List ℚ).length = (0 + 99 - (100 - i % 100) % 100) / 100
      simp only [List.length_nil]
      omega
    · rw [show ((trainLoop e l X y α 0 i p).2)[k]? = (none : Option ℚ) from rfl,
        if_neg (by omega)]
  | succ n ih =>
    intro i p
    obtain ⟨ih1, ih2, ih3⟩ := ih (i + 1) (epochStep e l X y α p)
    by_cases h : i % 100 = 0
    · have hr : (100 - i % 100) % 100 = 0 := by omega
      have hr' : (100 - (i + 1) % 100) % 100 = 99 := by omega
      rw [trainLoop_succ, if_pos h]
      refine ⟨?_, ?_, ?_⟩
      · rw [ih1, ← Function.iterate_succ_apply]
      · rw [List.length_cons, ih2, hr, hr']
        omega
      · intro k
        cases k with
        | zero =>
          rw [List.getElem?_cons_zero, hr, if_pos (by omega)]
          rw [Nat.mul_zero, Nat.add_zero, Function.iterate_zero_apply]
        | succ k =>
          rw [List.getElem?_cons_succ, ih3 k, hr', hr]
          by_cases hc : 99 + 100 * k < n
          · rw [if_pos hc, if_pos (by omega)]
            have hv : (epochStep e l X y α)^[99 + 100 * k] (epochStep e l X y α p) =
                (epochStep e l X y α)^[0 + 100 * (k + 1)] p := by
              rw [← Function.iterate_succ_apply]
              congr 1
              omega
            rw [hv]
          · rw [if_neg hc, if_neg (by omega)]
    · have hr : (100 - (i + 1) % 100) % 100 + 1 = (100 - i % 100) % 100 := by omega
      rw [trainLoop_succ, if_neg h]
      refine ⟨?_, ?_, ?_⟩
      · rw [ih1, ← Function.iterate_succ_apply]
      · rw [ih2]
        omega
      · intro k
        rw [ih3 k]
        by_cases hc : (100 - (i + 1) % 100) % 100 + 100 * k < n
        · rw [if_pos hc, if_pos (by omega)]
          have hv : (epochStep e l X y α)^[(100 - (i + 1) % 100) % 100 + 100 * k]
              (epochStep e l X y α p) =
              (epochStep e l X y α)^[(100 - i % 100) % 100 + 100 * k] p := by
            rw [← Function.iterate_succ_apply]
            congr 1
            omega
          rw [hv]
        · rw [if_neg hc, if_neg (by omega)]

/-- C3: training runs `epochs` sequential epochs, each applying
forward propagation, cost computation, backward propagation and the
parameter update (in that data-flow order: `epochStep`/`epochCost`) to the
previous epoch's parameters: the returned parameters are the `epochs`-fold
iterate of the epoch step on the initial parameters, and the returned cost
history has one entry per epoch index divisible by 100 — its `k`-th entry is
the cost of the forward pass at epoch `100 * k`, computed before that
epoch's update. -/
theorem train_three_layer_loop_spec (e l : ℚ → ℚ) (randn : Nat → Nat → Mat)
    (X y : Mat) (n_h1 n_h2 : Nat) (α : ℚ) (epochs : Nat) :
    let p0 : Params :=
      match initialize_parameters_3layer randn X.rows n_h1 n_h2 y.rows with
      | (W1, b1, W2, b2, W3, b3) => ⟨W1, b1, W2, b2, W3, b3⟩
    let step := epochStep e l X y α
    let out := train_three_layer e l randn X y n_h1 n_h2 α epochs
    (out.1 = step^[epochs] p0)
    ∧ (out.2.length = (epochs + 99) / 100)
    ∧ (∀ k, (out.2)[k]? =
        if 100 * k < epochs then some (epochCost e l X y (step^[100 * k] p0))
        else none)
    ∧ (∀ p, trainLoop e l X y α 1 0 p = (step p, [epochCost e l X y p])) := by
  intro p0 step out
  obtain ⟨h1, h2, h3⟩ := trainLoop_spec_aux e l X y α epochs 0 p0
  refine ⟨h1, ?_, fun k => ?_, fun p => rfl⟩
  · rw [show out.2 = (trainLoop e l X y α epochs 0 p0).2 from rfl, h2]
    norm_num
  · have h := h3 k
    rw [show (100 - 0 % 100) % 100 = 0 from by norm_num, Nat.zero_add] at h
    exact h

/-! ## A store model for the no-mutation (frame) property

Every numpy operation the cost, backward and update stages perform
(`np.dot`, `+`, `-`, `*`, `/`, `np.sum`, `np.log`, `np.maximum`, `>`)
allocates a fresh result array, and the stages contain no in-place
assignment (`+=`, slice assignment): rebinding a local name such as
`W1 = W1 - learning_rate * dW1` allocates a new array and leaves the
argument array untouched.  The store model below makes this observable:
a heap of arrays, procedures that only read their argument references and
allocate their outputs at fresh addresses (intermediate temporaries, which
no name ever observes, are not modelled). -/

abbrev Heap := List Mat

/-- The array a reference designates. -/
def Heap.read (h : Heap) (r : Nat) : Mat := h.getD r []

/-- Allocate a fresh array, returning the new heap and its reference. -/
def Heap.alloc (h : Heap) (M : Mat) : Heap × Nat := (h ++ [M], h.length)

/-- `update_parameters_3layer` as a store procedure: reads the current
parameter and gradient arrays, allocates the six freshly computed result
arrays, and returns their references. -/
def update_parameters_heap (h : Heap)
    (rW1 rb1 rW2 rb2 rW3 rb3 rdW1 rdb1 rdW2 rdb2 rdW3 rdb3 : Nat) (α : ℚ) :
    Heap × (Nat × Nat × Nat × Nat × Nat × Nat) :=
  let a1 := Heap.alloc h (npSub (h.read rW1) (npScale α (h.read rdW1)))
  let a2 := Heap.alloc a1.1 (npSub (a1.1.read rb1) (npScale α (a1.1.read rdb1)))
  let a3 := Heap.alloc a2.1 (npSub (a2.1.read rW2) (npScale α (a2.1.read rdW2)))
  let a4 := Heap.alloc a3.1 (npSub (a3.1.read rb2) (npScale α (a3.1.read rdb2)))
  let a5 := Heap.alloc a4.1 (npSub (a4.1.read rW3) (npScale α (a4.1.read rdW3)))
  let a6 := Heap.alloc a5.1 (npSub (a5.1.read rb3) (npScale α (a5.1.read rdb3)))
  (a6.1, (a1.2, a2.2, a3.2, a4.2, a5.2, a6.2))

/-- `compute_cost_3layer` as a store procedure: reads `A3` and `y`, returns
the scalar cost; no argument array is written. -/
def compute_cost_heap (l : ℚ → ℚ) (h : Heap) (rA3 ry : Nat) : Heap × ℚ :=
  (h, compute_cost_3layer l (h.read rA3) (h.read ry))

/-- `backward_propagation_3layer` as a store procedure: reads its seven
argument arrays, allocates the six gradient arrays, returns their
references. -/
def backward_propagation_heap (h : Heap) (rX ry rA1 rA2 rA3 rW2 rW3 : Nat) :
    Heap × (Nat × Nat × Nat × Nat × Nat × Nat) :=
  let g := backward_propagation_3layer (h.read rX) (h.read ry) (h.read rA1)
    (h.read rA2) (h.read rA3) (h.read rW2) (h.read rW3)
  let a1 := Heap.alloc h g.1
  let a2 := Heap.alloc a1.1 g.2.1
  let a3 := Heap.alloc a2.1 g.2.2.1
  let a4 := Heap.alloc a3.1 g.2.2.2.1
  let a5 := Heap.alloc a4.1 g.2.2.2.2.1
  let a6 := Heap.alloc a5.1 g.2.2.2.2.2
  (a6.1, (a1.2, a2.2, a3.2, a4.2, a5.2, a6.2))

lemma Heap.read_append (h : Heap) (t : List Mat) {r : Nat} (hr : r < h.length) :
    Heap.read (h ++ t) r = Heap.read h r := by
  unfold Heap.read
  rw [List.getD_eq_getElem _ _ (by rw [List.length_append]; omega),
    List.getD_eq_getElem _ _ hr, List.getElem_append_left hr]

lemma Heap.read_concat (h : Heap) (M : Mat) : Heap.read (h ++ [M]) h.length = M := by
  unfold Heap.read
  rw [List.getD_eq_getElem _ _ (by simp)]
  exact List.getElem_concat_length h M _ rfl _

lemma Heap.read_append_at (h : Heap) (t : List Mat) (i : Nat) :
    Heap.read (h ++ t) (h.length + i) = Heap.read t i := by
  unfold Heap.read
  rw [List.getD_eq_getElem?_getD, List.getD_eq_getElem?_getD,
    List.getElem?_append_right (by omega)]
  congr 2
  omega


/-- C10: none of the three per-epoch stages mutates an argument array.  In
the store model, cost computation returns the heap unchanged, and backward
propagation and the parameter update only allocate: the resulting heap is
the old heap with the freshly computed result arrays appended, so every
array allocated before the call reads back unchanged afterwards.  The
update's outputs are the fresh arrays `W - α * dW`, `b - α * db` (not the
argument arrays); backward's outputs are the fresh gradient arrays of the
read arguments; the cost is the pure function of the read arguments. -/
theorem stages_do_not_mutate_arguments (l : ℚ → ℚ) (h : Heap)
    (rW1 rb1 rW2 rb2 rW3 rb3 rdW1 rdb1 rdW2 rdb2 rdW3 rdb3
      rX ry rA1 rA2 rA3 : Nat) (α : ℚ)
    (hrW1 : rW1 < h.length) (hrb1 : rb1 < h.length)
    (hrW2 : rW2 < h.length) (hrb2 : rb2 < h.length)
    (hrW3 : rW3 < h.length) (hrb3 : rb3 < h.length)
    (hrdW1 : rdW1 < h.length) (hrdb1 : rdb1 < h.length)
    (hrdW2 : rdW2 < h.length) (hrdb2 : rdb2 < h.length)
    (hrdW3 : rdW3 < h.length) (hrdb3 : rdb3 < h.length) :
    let u := update_parameters_heap h rW1 rb1 rW2 rb2 rW3 rb3
      rdW1 rdb1 rdW2 rdb2 rdW3 rdb3 α
    let c := compute_cost_heap l h rA3 ry
    let b := backward_propagation_heap h rX ry rA1 rA2 rA3 rW2 rW3
    let g := backward_propagation_3layer (h.read rX) (h.read ry) (h.read rA1)
      (h.read rA2) (h.read rA3) (h.read rW2) (h.read rW3)
    (u.1 = h ++
      [npSub (h.read rW1) (npScale α (h.read rdW1)),
       npSub (h.read rb1) (npScale α (h.read rdb1)),
       npSub (h.read rW2) (npScale α (h.read rdW2)),
       npSub (h.read rb2) (npScale α (h.read rdb2)),
       npSub (h.read rW3) (npScale α (h.read rdW3)),
       npSub (h.read rb3) (npScale α (h.read rdb3))])
    ∧ (u.2 = (h.length, h.length + 1, h.length + 2, h.length + 3,
        h.length + 4, h.length + 5))
    ∧ (∀ r, r < h.length → u.1.read r = h.read r)
    ∧ (c = (h, compute_cost_3layer l (h.read rA3) (h.read ry)))
    ∧ (b.1 = h ++ [g.1, g.2.1, g.2.2.1, g.2.2.2.1, g.2.2.2.2.1, g.2.2.2.2.2])
    ∧ (b.2 = (h.length, h.length + 1, h.length + 2, h.length + 3,
        h.length + 4, h.length + 5))
    ∧ (∀ r, r < h.length → b.1.read r = h.read r) := by
  intro u c b g
  have hu1 : u.1 = h ++
      [npSub (h.read rW1) (npScale α (h.read rdW1)),
       npSub (h.read rb1) (npScale α (h.read rdb1)),
       npSub (h.read rW2) (npScale α (h.read rdW2)),
       npSub (h.read rb2) (npScale α (h.read rdb2)),
       npSub (h.read rW3) (npScale α (h.read rdW3)),
       npSub (h.read rb3) (npScale α (h.read rdb3))] := by
    show (update_parameters_heap h rW1 rb1 rW2 rb2 rW3 rb3
      rdW1 rdb1 rdW2 rdb2 rdW3 rdb3 α).1 = _
    simp only [update_parameters_heap, Heap.alloc, List.append_assoc,
      List.singleton_append, List.cons_append]
    rw [Heap.read_append h _ hrb1, Heap.read_append h _ hrdb1,
      Heap.read_append h _ hrW2, Heap.read_append h _ hrdW2,
      Heap.read_append h _ hrb2, Heap.read_append h _ hrdb2,
      Heap.read_append h _ hrW3, Heap.read_append h _ hrdW3,
      Heap.read_append h _ hrb3, Heap.read_append h _ hrdb3]
    rfl
  have hu2 : u.2 = (h.length, h.length + 1, h.length + 2, h.length + 3,
      h.length + 4, h.length + 5) := by
    show (update_parameters_heap h rW1 rb1 rW2 rb2 rW3 rb3
      rdW1 rdb1 rdW2 rdb2 rdW3 rdb3 α).2 = _
    simp only [update_parameters_heap, Heap.alloc]
    simp [List.length_append]
  have hb1 : b.1 = h ++ [g.1, g.2.1, g.2.2.1, g.2.2.2.1, g.2.2.2.2.1,
      g.2.2.2.2.2] := by
    show (backward_propagation_heap h rX ry rA1 rA2 rA3 rW2 rW3).1 = _
    simp only [backward_propagation_heap, Heap.alloc, List.append_assoc,
      List.singleton_append, List.cons_append]
    rfl
  have hb2 : b.2 = (h.length, h.length + 1, h.length + 2, h.length + 3,
      h.length + 4, h.length + 5) := by
    show (backward_propagation_heap h rX ry rA1 rA2 rA3 rW2 rW3).2 = _
    simp only [backward_propagation_heap, Heap.alloc]
    simp [List.length_append]
  refine ⟨hu1, hu2, fun r hr => ?_, rfl, hb1, hb2, fun r hr => ?_⟩
  · rw [show u.1.read r = Heap.read u.1 r from rfl, hu1]
    exact Heap.read_append h _ hr
  · rw [show b.1.read r = Heap.read b.1 r from rfl, hb1]
    exact Heap.read_append h _ hr

theorem stages_do_not_mutate_arguments_witness :
    compute_cost_heap id [[[1]]] 0 0 =
      ([[[1]]], compute_cost_3layer id (Heap.read [[[1]]] 0) (Heap.read [[[1]]] 0)) := by
  exact (stages_do_not_mutate_arguments id [[[1]]] 0 0 0 0 0 0 0 0 0 0 0 0 0 0 0 0 0 1
    (by decide) (by decide) (by decide) (by decide) (by decide) (by decide)
    (by decide) (by decide) (by decide) (by decide) (by decide) (by decide)).2.2.2.1
